import Mathlib

/-!
Shallow embedding of the MIBEL day-ahead market clearing script
(`MIBEL_DAM_v1-2.py`).  Prices, energies and dispatch levels are modelled
as rationals; the external LP solver is modelled as a function returning a
dispatch for every generator name, a signed link flow and the two zonal
marginal prices.  Feasibility of a solver output (variable bounds, link
capacity, nodal balance) is an executable predicate.
-/

namespace MIBEL

/-- A raw input bid record: one row of the bid table, with the price
column already aliased (`BID PRICE (EUR/MWH)`), before the tie-breaking
perturbation.  `inter` is the row's `INTERCONNECTION` value, meaningful
only when the table carries that column. -/
structure RawBid where
  period : Int
  country : String
  ttype : String
  price : ℚ
  energy : ℚ
  inter : ℚ
deriving DecidableEq

/-- A bid after the perturbation step: it additionally carries its row
index `idx` (the pandas index, used to name decision variables) and its
`price` is the perturbed price. -/
structure XBid where
  idx : ℕ
  period : Int
  country : String
  ttype : String
  price : ℚ
  energy : ℚ
  inter : ℚ
deriving DecidableEq

instance : Inhabited XBid := ⟨⟨0, 0, "", "", 0, 0, 0⟩⟩

/-- The tie-breaking perturbation (line 22 of the source):
`df["BID PRICE (EUR/MWH)"] += 0.001 * np.random.rand(len(df))`, where the
random draw for row `i` is `rand i` for a deterministic generator `rand`
fixed by the seed. -/
def perturbFrom (rand : ℕ → ℚ) : ℕ → List RawBid → List XBid
  | _, [] => []
  | i, b :: rest =>
      ⟨i, b.period, b.country, b.ttype, b.price + (1/1000) * rand i, b.energy, b.inter⟩
        :: perturbFrom rand (i + 1) rest

/-- A component of the per-hour pypsa network: a generator
(`p_nom`, `p_min_pu`, `p_max_pu`, `marginal_cost`) or a fixed load
(`p_set`).  The output range of a generator is
`[p_nom * p_min_pu, p_nom * p_max_pu]`; a fixed load always consumes
exactly `p_set`. -/
inductive Component where
  | generator (name bus : String) (p_nom p_min_pu p_max_pu marginal_cost : ℚ)
  | fixedLoad (name bus : String) (p_set : ℚ)
deriving DecidableEq

/-- Mandatory-acceptance price threshold for buy bids (source line 111). -/
def MANDATORY_PRICE : ℚ := 3880

/-- Source `add_sell` (lines 91-103): skip non-positive energy, otherwise
add a generator `SELL_{zone}_{i}` with `p_nom = energy` and marginal cost
the bid price (pypsa defaults `p_min_pu = 0`, `p_max_pu = 1`). -/
def add_sell (zone : String) (b : XBid) : Option Component :=
  if b.energy ≤ 0 then none
  else some (Component.generator ("SELL_" ++ zone ++ "_" ++ toString b.idx) zone
    b.energy 0 1 b.price)

/-- Source `add_buy` (lines 113-135): skip non-positive energy; a bid
priced at or above `MANDATORY_PRICE` becomes a fixed load
`BUY_{zone}_{i}` with `p_set = energy`; otherwise it becomes a
curtailable generator `FLEX_{zone}_{i}` with `p_nom = energy`,
`p_min_pu = -1`, `p_max_pu = 0` and marginal cost the bid price. -/
def add_buy (zone : String) (b : XBid) : Option Component :=
  if b.energy ≤ 0 then none
  else if b.price ≥ MANDATORY_PRICE then
    some (Component.fixedLoad ("BUY_" ++ zone ++ "_" ++ toString b.idx) zone b.energy)
  else
    some (Component.generator ("FLEX_" ++ zone ++ "_" ++ toString b.idx) zone
      b.energy (-1) 0 b.price)

/-- Bids of one period (source line 59: `df[df["PERIOD"] == period]`). -/
def bidsOfPeriod (bids : List XBid) (p : Int) : List XBid :=
  bids.filter (fun b => b.period == p)

/-- Source line 62. -/
def pt_sell (dfh : List XBid) : List XBid :=
  dfh.filter (fun b => b.country == "PT" && b.ttype == "SELL")

/-- Source line 63. -/
def es_sell (dfh : List XBid) : List XBid :=
  dfh.filter (fun b => b.country == "ES" && b.ttype == "SELL")

/-- Source line 64. -/
def pt_buy (dfh : List XBid) : List XBid :=
  dfh.filter (fun b => b.country == "PT" && b.ttype == "BUY")

/-- Source line 65. -/
def es_buy (dfh : List XBid) : List XBid :=
  dfh.filter (fun b => b.country == "ES" && b.ttype == "BUY")

/-- Source line 77: the per-period interconnection capacity is the first
row's `INTERCONNECTION` value when the column exists, else the fallback
constant 3800. -/
def intercap (hasInter : Bool) (dfh : List XBid) : ℚ :=
  if hasInter then (dfh.headD default).inter else 3800

/-- All network components built for one period, in source order
(sell PT, sell ES, buy PT, buy ES). -/
def marketComponents (dfh : List XBid) : List Component :=
  (pt_sell dfh).filterMap (add_sell "PT") ++ (es_sell dfh).filterMap (add_sell "ES")
    ++ (pt_buy dfh).filterMap (add_buy "PT") ++ (es_buy dfh).filterMap (add_buy "ES")

/-- The per-hour network: its components and the link `p_nom`; the link
`PT_ES` has `bus0 = PT`, `bus1 = ES`, `p_min_pu = -1`, so its flow `p0`
(positive means PT to ES) ranges over `[-p_nom, p_nom]`. -/
structure Network where
  comps : List Component
  link_p_nom : ℚ

/-- Network construction for one period (source lines 70-138). -/
def buildNetwork (hasInter : Bool) (dfh : List XBid) : Network :=
  { comps := marketComponents dfh, link_p_nom := intercap hasInter dfh }

/-- Output of the external LP solver for one period: a dispatch level per
generator name, the signed link flow `p0`, and the two zonal marginal
prices. -/
structure Solution where
  genP : String → ℚ
  flow : ℚ
  price_pt : ℚ
  price_es : ℚ

/-- What the solved network reports as the power of a component: the
solver dispatch for a generator, `p_set` for a fixed load. -/
def dispatchOf (sol : Solution) : Component → ℚ
  | Component.generator n _ _ _ _ _ => sol.genP n
  | Component.fixedLoad _ _ ps => ps

/-- Variable bounds of one component under a solver output. -/
def genOK (sol : Solution) : Component → Bool
  | Component.generator n _ pn pmin pmax _ =>
      decide (pn * pmin ≤ sol.genP n) && decide (sol.genP n ≤ pn * pmax)
  | Component.fixedLoad _ _ _ => true

/-- Total generator injection at a bus. -/
def zoneSupply (net : Network) (sol : Solution) (z : String) : ℚ :=
  (net.comps.map (fun c => match c with
    | Component.generator n b _ _ _ _ => if b = z then sol.genP n else 0
    | Component.fixedLoad _ _ _ => 0)).sum

/-- Total fixed load at a bus. -/
def zoneLoad (net : Network) (z : String) : ℚ :=
  (net.comps.map (fun c => match c with
    | Component.fixedLoad _ b ps => if b = z then ps else 0
    | Component.generator _ _ _ _ _ _ => 0)).sum

/-- Feasibility of a solver output: every generator within its bounds,
link flow within capacity, and nodal balance at both buses (flow `p0`
leaves PT and, with efficiency 1, arrives at ES). -/
def feasible (net : Network) (sol : Solution) : Bool :=
  net.comps.all (genOK sol)
    && decide (-net.link_p_nom ≤ sol.flow) && decide (sol.flow ≤ net.link_p_nom)
    && decide (zoneSupply net sol "PT" - zoneLoad net "PT" - sol.flow = 0)
    && decide (zoneSupply net sol "ES" - zoneLoad net "ES" + sol.flow = 0)

/-- Helper: sum of `p_set` over the fixed loads of a component list. -/
def loadsSum (cs : List Component) : ℚ :=
  (cs.filterMap (fun c => match c with
    | Component.fixedLoad _ _ ps => some ps
    | Component.generator _ _ _ _ _ _ => none)).sum

/-- Source line 184: `total_demand = n.loads_t.p.loc[0].sum()` — the sum
of the (fixed) load values. -/
def total_demand (net : Network) : ℚ := loadsSum net.comps

/-- Helper: sum of dispatch over the generators with positive `p_nom` of
a component list. -/
def genPSum (sol : Solution) (cs : List Component) : ℚ :=
  (cs.filterMap (fun c => match c with
    | Component.generator n _ pn _ _ _ => if 0 < pn then some (sol.genP n) else none
    | Component.fixedLoad _ _ _ => none)).sum

/-- Source line 185:
`total_supply = n.generators_t.p.loc[0][n.generators.p_nom > 0].sum()` —
the sum of dispatch over all generators with positive `p_nom`. -/
def total_supply (net : Network) (sol : Solution) : ℚ := genPSum sol net.comps

/-- One session-result row (source lines 196-210); the fields relevant to
the verified properties. -/
structure SessionRow where
  period : Int
  price_pt : ℚ
  price_es : ℚ
  clearing_price : ℚ
  pt_to_es_flow : ℚ
  es_to_pt_flow : ℚ
  total_demand_field : ℚ
  total_supply_field : ℚ
  traded : ℚ

/-- Building the session row of one period (source lines 148-210):
`clearing_price = max(price_pt, price_es)`, flows split by sign, and the
aggregate demand/supply/traded fields. -/
def sessionRow (p : Int) (net : Network) (sol : Solution) : SessionRow :=
  { period := p
    price_pt := sol.price_pt
    price_es := sol.price_es
    clearing_price := max sol.price_pt sol.price_es
    pt_to_es_flow := max sol.flow 0
    es_to_pt_flow := max (-sol.flow) 0
    total_demand_field := total_demand net
    total_supply_field := total_supply net sol
    traded := min (total_demand net) (total_supply net sol) }

/-- Whether a generator of this name exists (`unit_name in n.generators.index`). -/
def hasGen (net : Network) (nm : String) : Bool :=
  net.comps.any (fun c => match c with
    | Component.generator n _ _ _ _ _ => n == nm
    | Component.fixedLoad _ _ _ => false)

/-- Whether a fixed load of this name exists (`unit_name in n.loads.index`). -/
def hasLoad (net : Network) (nm : String) : Bool :=
  net.comps.any (fun c => match c with
    | Component.fixedLoad n _ _ => n == nm
    | Component.generator _ _ _ _ _ _ => false)

/-- The reported power of the named fixed load (`n.loads_t.p.loc[0, nm]`). -/
def loadP (net : Network) (nm : String) : ℚ :=
  (net.comps.filterMap (fun c => match c with
    | Component.fixedLoad n _ ps => if n = nm then some ps else none
    | Component.generator _ _ _ _ _ _ => none)).headD 0

/-- The trade tolerance `1e-6` of the trading-results loop. -/
def TOL : ℚ := 1/1000000

/-- One trading-result row (source lines 229-243); the fields relevant to
the verified properties. -/
structure TradingRow where
  period : Int
  country : String
  ttype : String
  bid_price : ℚ
  bid_energy : ℚ
  was_traded : ℕ
  clearing_price : ℚ
  traded_energy : ℚ

/-- The trading-result row of one original bid (source lines 215-243):
the unit name is `{TYPE}_{COUNTRY}_{i}`; a SELL bid reads the absolute
dispatch of the generator of that name, a BUY bid reads the power of the
load of that name; in either case the trade flag is
`traded_energy > 1e-6`, and the recorded clearing price is the zonal
price of the bid's own country. -/
def tradingRow (net : Network) (sol : Solution) (b : XBid) : TradingRow :=
  let unit_name := b.ttype ++ "_" ++ b.country ++ "_" ++ toString b.idx
  let te : ℚ :=
    if b.ttype = "SELL" then
      (if hasGen net unit_name then |sol.genP unit_name| else 0)
    else if b.ttype = "BUY" then
      (if hasLoad net unit_name then loadP net unit_name else 0)
    else 0
  { period := b.period
    country := b.country
    ttype := b.ttype
    bid_price := b.price
    bid_energy := b.energy
    was_traded := if te > TOL then 1 else 0
    clearing_price := if b.country = "PT" then sol.price_pt else sol.price_es
    traded_energy := te }

/-- The whole input: the bid table rows plus whether the
`INTERCONNECTION` column is present. -/
structure BidTable where
  bids : List RawBid
  hasInter : Bool

/-- The perturbed, indexed bid table. -/
def xbids (rand : ℕ → ℚ) (tbl : BidTable) : List XBid := perturbFrom rand 0 tbl.bids

/-- Source lines 29-35: the hours to simulate are the distinct `PERIOD`
values of the table, in ascending order. -/
def hours (xb : List XBid) : List Int :=
  List.insertionSort (· ≤ ·) (xb.map XBid.period).dedup

/-- The session row produced for one period of the loop. -/
def runPeriodSession (solver : Network → Solution) (hasInter : Bool)
    (xb : List XBid) (p : Int) : SessionRow :=
  let dfh := bidsOfPeriod xb p
  let net := buildNetwork hasInter dfh
  sessionRow p net (solver net)

/-- The trading rows produced for one period of the loop (one per
original bid of the period, in table order). -/
def runPeriodTrading (solver : Network → Solution) (hasInter : Bool)
    (xb : List XBid) (p : Int) : List TradingRow :=
  let dfh := bidsOfPeriod xb p
  let net := buildNetwork hasInter dfh
  dfh.map (tradingRow net (solver net))

/-- The whole pipeline: perturb prices, enumerate hours, and accumulate
the session table and the trading table over the hours in order.  The
solver is the external LP collaborator, modelled as a function. -/
def fullRun (solver : Network → Solution) (rand : ℕ → ℚ) (tbl : BidTable) :
    List SessionRow × List TradingRow :=
  let xb := xbids rand tbl
  ((hours xb).map (runPeriodSession solver tbl.hasInter xb),
   (hours xb).flatMap (runPeriodTrading solver tbl.hasInter xb))

/-- Following the spec's words (section 4.4): the dispatch of the SELL
decision variable of an accepted sell bid (zero if the bid was not
accepted into the model). -/
def sellDispatch (sol : Solution) (zone : String) (b : XBid) : ℚ :=
  if 0 < b.energy then sol.genP ("SELL_" ++ zone ++ "_" ++ toString b.idx) else 0

/-- Following the spec's words (section 4.4): the dispatch of the FLEX
decision variable of an accepted flexible buy bid (zero otherwise). -/
def flexDispatch (sol : Solution) (zone : String) (b : XBid) : ℚ :=
  if 0 < b.energy ∧ b.price < MANDATORY_PRICE then
    sol.genP ("FLEX_" ++ zone ++ "_" ++ toString b.idx)
  else 0

/-- Following the spec's words (section 4.4): `total_supply` = sum of
dispatch over all SELL decision variables. -/
def spec_total_supply (dfh : List XBid) (sol : Solution) : ℚ :=
  ((pt_sell dfh).map (sellDispatch sol "PT")).sum
    + ((es_sell dfh).map (sellDispatch sol "ES")).sum

/-- Following the spec's words (section 4.4): `total_flexible_demand` =
sum of the absolute dispatch over all FLEX decision variables. -/
def spec_flexible_demand (dfh : List XBid) (sol : Solution) : ℚ :=
  ((pt_buy dfh).map (fun b => |flexDispatch sol "PT" b|)).sum
    + ((es_buy dfh).map (fun b => |flexDispatch sol "ES" b|)).sum

/-- The fixed load created for a buy bid (its energy when it is accepted
and mandatory, zero otherwise). -/
def mandLoad (b : XBid) : ℚ :=
  if 0 < b.energy ∧ MANDATORY_PRICE ≤ b.price then b.energy else 0

/-- Following the spec's words (section 4.4): `total_mandatory_demand` =
sum of the fixed loads. -/
def spec_mandatory_demand (dfh : List XBid) : ℚ :=
  ((pt_buy dfh).map mandLoad).sum + ((es_buy dfh).map mandLoad).sum

/-- The signed total dispatch of the FLEX decision variables. -/
def spec_flex_dispatch_total (dfh : List XBid) (sol : Solution) : ℚ :=
  ((pt_buy dfh).map (flexDispatch sol "PT")).sum
    + ((es_buy dfh).map (flexDispatch sol "ES")).sum

/-- Modelled from the spec: the repository's richer near-duplicate
clearing script (the welfare-computing variant described in sections 4.4
and 9 of the spec, not present under `src/`) computes a per-period
congestion flag `congested = abs(abs(link_flow) - capacity) < 1e-3`. -/
def congested (link_flow capacity : ℚ) : Bool :=
  decide (|(|link_flow|) - capacity| < 1/1000)

/-- Following the claim's words: two quantities are equal within a
tolerance when the absolute difference is below it. -/
def eqWithinTol (a b tol : ℚ) : Prop := |a - b| < tol

lemma feasible_parts {net : Network} {sol : Solution} (hf : feasible net sol = true) :
    (∀ c ∈ net.comps, genOK sol c = true)
      ∧ (-net.link_p_nom ≤ sol.flow ∧ sol.flow ≤ net.link_p_nom) := by
  simp only [feasible, Bool.and_eq_true, List.all_eq_true, decide_eq_true_eq] at hf
  exact ⟨hf.1.1.1.1, hf.1.1.1.2, hf.1.1.2⟩

lemma filter_filterMap_skip {p : XBid → Bool} {f : XBid → Option Component} (b : XBid)
    (hb : f b = none) (l₁ l₂ : List XBid) :
    ((l₁ ++ b :: l₂).filter p).filterMap f = ((l₁ ++ l₂).filter p).filterMap f := by
  rcases hp : p b with _ | _ <;>
    simp [List.filter_append, List.filterMap_append, List.filter_cons, hp,
      List.filterMap_cons, hb]

/-- C6: a bid whose energy is zero or negative is excluded from the
market model — neither `add_sell` nor `add_buy` creates a component for
it, no error is raised (both functions are total), and removing such a
bid from a period's table leaves the built component list unchanged. -/
theorem zero_energy_bid_excluded (zone : String) (b : XBid) (h : b.energy ≤ 0) :
    add_sell zone b = none ∧ add_buy zone b = none ∧
      ∀ l₁ l₂ : List XBid, marketComponents (l₁ ++ b :: l₂) = marketComponents (l₁ ++ l₂) := by
  refine ⟨by simp [add_sell, h], by simp [add_buy, h], fun l₁ l₂ => ?_⟩
  unfold marketComponents pt_sell es_sell pt_buy es_buy
  rw [filter_filterMap_skip b (by simp [add_sell, h]),
    filter_filterMap_skip b (by simp [add_sell, h]),
    filter_filterMap_skip b (by simp [add_buy, h]),
    filter_filterMap_skip b (by simp [add_buy, h])]

def bZero : XBid := ⟨7, 1, "PT", "SELL", 10, 0, 0⟩

/-- Witness for C6 at a concrete zero-energy bid. -/
theorem zero_energy_bid_excluded_check :
    add_sell "PT" bZero = none ∧ add_buy "PT" bZero = none ∧
      marketComponents [bZero] = marketComponents [] := by
  have h := zero_energy_bid_excluded "PT" bZero (by norm_num [bZero])
  exact ⟨h.1, h.2.1, by simpa using h.2.2 [] []⟩

/-- C5: a BUY bid with positive energy enters the model as a fixed load
equal to its energy when its (perturbed) price is at least 3880 — and a
fixed load is served exactly `p_set` in any solution — and otherwise as a
curtailable negative-output generator with marginal cost the bid price
whose dispatch, in any feasible solution of a network containing it, lies
in the range from `-energy` to `0`. -/
theorem buy_bid_classification (zone : String) (b : XBid) (h : 0 < b.energy) :
    (MANDATORY_PRICE ≤ b.price →
        add_buy zone b
          = some (Component.fixedLoad ("BUY_" ++ zone ++ "_" ++ toString b.idx) zone b.energy))
    ∧ (b.price < MANDATORY_PRICE →
        add_buy zone b
          = some (Component.generator ("FLEX_" ++ zone ++ "_" ++ toString b.idx) zone
              b.energy (-1) 0 b.price)
          ∧ b.energy * (-1) = -b.energy ∧ b.energy * 0 = 0)
    ∧ ∀ net sol c, feasible net sol = true → c ∈ net.comps → add_buy zone b = some c →
        (MANDATORY_PRICE ≤ b.price → dispatchOf sol c = b.energy)
        ∧ (b.price < MANDATORY_PRICE →
            -b.energy ≤ sol.genP ("FLEX_" ++ zone ++ "_" ++ toString b.idx)
            ∧ sol.genP ("FLEX_" ++ zone ++ "_" ++ toString b.idx) ≤ 0) := by
  have hne : ¬ b.energy ≤ 0 := not_le.mpr h
  have hLoad : MANDATORY_PRICE ≤ b.price →
      add_buy zone b
        = some (Component.fixedLoad ("BUY_" ++ zone ++ "_" ++ toString b.idx) zone b.energy) :=
    fun hp => by simp [add_buy, hne, hp]
  have hFlex : b.price < MANDATORY_PRICE →
      add_buy zone b
        = some (Component.generator ("FLEX_" ++ zone ++ "_" ++ toString b.idx) zone
            b.energy (-1) 0 b.price) :=
    fun hp => by simp [add_buy, hne, not_le.mpr hp]
  refine ⟨hLoad, fun hp => ⟨hFlex hp, by ring, by ring⟩, fun net sol c hf hc hab => ⟨?_, ?_⟩⟩
  · intro hp
    rw [hLoad hp] at hab
    obtain rfl : _ = c := Option.some.inj hab
    rfl
  · intro hp
    rw [hFlex hp] at hab
    obtain rfl : _ = c := Option.some.inj hab
    have hg := (feasible_parts hf).1 _ hc
    simp only [genOK, Bool.and_eq_true, decide_eq_true_eq] at hg
    obtain ⟨h1, h2⟩ := hg
    rw [mul_neg_one] at h1
    rw [mul_zero] at h2
    exact ⟨h1, h2⟩

def xMand : XBid := ⟨0, 1, "PT", "BUY", 4000, 5, 0⟩
def xFlex : XBid := ⟨1, 1, "PT", "BUY", 50, 5, 0⟩
def cFlexW : Component :=
  Component.generator ("FLEX_" ++ "PT" ++ "_" ++ toString xFlex.idx) "PT"
    xFlex.energy (-1) 0 xFlex.price
def netW : Network := ⟨[cFlexW], 3800⟩
def solW : Solution := ⟨fun _ => 0, 0, 50, 50⟩

/-- Witness for C5 at a concrete mandatory buy bid and a concrete
flexible buy bid placed in a feasible one-component network. -/
theorem buy_bid_classification_check :
    add_buy "PT" xMand
        = some (Component.fixedLoad ("BUY_" ++ "PT" ++ "_" ++ toString xMand.idx) "PT"
            xMand.energy)
    ∧ add_buy "PT" xFlex
        = some (Component.generator ("FLEX_" ++ "PT" ++ "_" ++ toString xFlex.idx) "PT"
            xFlex.energy (-1) 0 xFlex.price)
    ∧ -xFlex.energy ≤ solW.genP ("FLEX_" ++ "PT" ++ "_" ++ toString xFlex.idx)
    ∧ solW.genP ("FLEX_" ++ "PT" ++ "_" ++ toString xFlex.idx) ≤ 0 := by
  have hfW : feasible netW solW = true := by
    norm_num [feasible, netW, solW, cFlexW, xFlex, genOK, zoneSupply, zoneLoad]
  have h1 := (buy_bid_classification "PT" xMand (by norm_num [xMand])).1
    (by norm_num [xMand, MANDATORY_PRICE])
  have hfl := buy_bid_classification "PT" xFlex (by norm_num [xFlex])
  have hp : xFlex.price < MANDATORY_PRICE := by norm_num [xFlex, MANDATORY_PRICE]
  have h2 := (hfl.2.1 hp).1
  have h3 := hfl.2.2 netW solW cFlexW hfW (by simp [netW]) h2
  exact ⟨h1, h2, (h3.2 hp).1, (h3.2 hp).2⟩

/-- C7: the interconnector capacity is the fallback constant 3800 when
the `INTERCONNECTION` column is absent (not an error), is the period's
first-row value when the column is present, and in either case any
feasible solution of the built network has its link flow within
`[-capacity, capacity]`. -/
theorem interconnection_capacity (hi : Bool) (dfh : List XBid) (b : XBid) (rest : List XBid)
    (sol : Solution) :
    intercap false dfh = 3800
    ∧ intercap true (b :: rest) = b.inter
    ∧ (feasible (buildNetwork hi dfh) sol = true →
        -(intercap hi dfh) ≤ sol.flow ∧ sol.flow ≤ intercap hi dfh) := by
  refine ⟨rfl, rfl, fun hf => ?_⟩
  exact (feasible_parts hf).2

/-- Witness for C7 at a concrete bid table and a concrete feasible
solution with zero flow. -/
theorem interconnection_capacity_check :
    intercap false [xFlex] = 3800
    ∧ intercap true (xFlex :: []) = xFlex.inter
    ∧ (-(intercap false ([] : List XBid)) ≤ solW.flow
        ∧ solW.flow ≤ intercap false ([] : List XBid)) := by
  have h := interconnection_capacity false ([] : List XBid) xFlex [] solW
  refine ⟨rfl, rfl, h.2.2 ?_⟩
  norm_num [feasible, buildNetwork, marketComponents, pt_sell, es_sell, pt_buy, es_buy,
    intercap, solW, zoneSupply, zoneLoad]

/-- C4: the congestion flag of the result row equals
`abs(abs(link_flow) - capacity) < 1e-3`, i.e. it is true exactly when the
interconnector flow magnitude equals the capacity within that
tolerance. -/
theorem congested_iff_at_capacity (f c : ℚ) :
    congested f c = true ↔ eqWithinTol |f| c (1/1000) := by
  simp [congested, eqWithinTol]

lemma loadsSum_append (a b : List Component) : loadsSum (a ++ b) = loadsSum a + loadsSum b := by
  simp [loadsSum, List.filterMap_append, List.sum_append]

lemma genPSum_append (sol : Solution) (a b : List Component) :
    genPSum sol (a ++ b) = genPSum sol a + genPSum sol b := by
  simp [genPSum, List.filterMap_append, List.sum_append]

lemma loadsSum_add_sell (zone : String) (l : List XBid) :
    loadsSum (l.filterMap (add_sell zone)) = 0 := by
  induction l with
  | nil => simp [loadsSum]
  | cons b t ih =>
    by_cases h : b.energy ≤ 0
    · simpa [List.filterMap_cons, add_sell, h] using ih
    · simpa [List.filterMap_cons, add_sell, h, loadsSum] using ih

lemma loadsSum_add_buy (zone : String) (l : List XBid) :
    loadsSum (l.filterMap (add_buy zone)) = (l.map mandLoad).sum := by
  induction l with
  | nil => simp [loadsSum]
  | cons b t ih =>
    by_cases h : b.energy ≤ 0
    · have hm : mandLoad b = 0 := by simp [mandLoad, not_lt.mpr h]
      simpa [List.filterMap_cons, add_buy, h, hm] using ih
    · have he : 0 < b.energy := not_le.mp h
      by_cases hp : b.price ≥ MANDATORY_PRICE
      · have hm : mandLoad b = b.energy := by simp [mandLoad, he, hp]
        simp [List.filterMap_cons, add_buy, h, hp, loadsSum, hm, ih, loadsSum_append]
        simp [loadsSum] at ih
        simp [ih]
      · have hm : mandLoad b = 0 := by simp [mandLoad, not_le.mp hp]
        simpa [List.filterMap_cons, add_buy, h, hp, hm] using ih

lemma genPSum_add_sell (zone : String) (sol : Solution) (l : List XBid) :
    genPSum sol (l.filterMap (add_sell zone)) = (l.map (sellDispatch sol zone)).sum := by
  induction l with
  | nil => simp [genPSum]
  | cons b t ih =>
    by_cases h : b.energy ≤ 0
    · have hs : sellDispatch sol zone b = 0 := by simp [sellDispatch, not_lt.mpr h]
      simpa [List.filterMap_cons, add_sell, h, hs] using ih
    · have he : 0 < b.energy := not_le.mp h
      have hs : sellDispatch sol zone b
          = sol.genP ("SELL_" ++ zone ++ "_" ++ toString b.idx) := by
        simp [sellDispatch, he]
      simp [List.filterMap_cons, add_sell, h, genPSum, he, hs]
      simp [genPSum] at ih
      simp [ih]

lemma genPSum_add_buy (zone : String) (sol : Solution) (l : List XBid) :
    genPSum sol (l.filterMap (add_buy zone)) = (l.map (flexDispatch sol zone)).sum := by
  induction l with
  | nil => simp [genPSum]
  | cons b t ih =>
    by_cases h : b.energy ≤ 0
    · have hs : flexDispatch sol zone b = 0 := by simp [flexDispatch, not_lt.mpr h]
      simpa [List.filterMap_cons, add_buy, h, hs] using ih
    · have he : 0 < b.energy := not_le.mp h
      by_cases hp : b.price ≥ MANDATORY_PRICE
      · have hs : flexDispatch sol zone b = 0 := by
          simp [flexDispatch, not_lt.mpr hp]
        simpa [List.filterMap_cons, add_buy, h, hp, hs] using ih
      · have hpl : b.price < MANDATORY_PRICE := not_le.mp hp
        have hs : flexDispatch sol zone b
            = sol.genP ("FLEX_" ++ zone ++ "_" ++ toString b.idx) := by
          simp [flexDispatch, he, hpl]
        simp [List.filterMap_cons, add_buy, h, hp, genPSum, he, hs]
        simp [genPSum] at ih
        simp [ih]

/-- C1 (amended): the session-result field `total_demand` is the sum of
the fixed loads alone — the energies of the accepted mandatory buy bids —
and does not include the dispatch of the flexible-buy decision
variables. -/
theorem total_demand_is_mandatory_only (hi : Bool) (dfh : List XBid) :
    total_demand (buildNetwork hi dfh) = spec_mandatory_demand dfh := by
  show loadsSum (marketComponents dfh) = _
  unfold marketComponents
  rw [loadsSum_append, loadsSum_append, loadsSum_append, loadsSum_add_sell,
    loadsSum_add_sell, loadsSum_add_buy, loadsSum_add_buy, spec_mandatory_demand]
  ring

/-- C3 (amended): the session-result field `total_supply` sums the
dispatch of every decision variable with positive capacity — the SELL
variables and the FLEX (flexible-buy) variables alike — so the (negative)
flexible-buy dispatch does enter `total_supply`. -/
theorem total_supply_includes_flex (hi : Bool) (dfh : List XBid) (sol : Solution) :
    total_supply (buildNetwork hi dfh) sol
      = spec_total_supply dfh sol + spec_flex_dispatch_total dfh sol := by
  show genPSum sol (marketComponents dfh) = _
  unfold marketComponents
  rw [genPSum_append, genPSum_append, genPSum_append, genPSum_add_sell, genPSum_add_sell,
    genPSum_add_buy, genPSum_add_buy, spec_total_supply, spec_flex_dispatch_total]
  ring

lemma toString_zero : toString (0 : ℕ) = "0" := rfl

lemma toString_one : toString (1 : ℕ) = "1" := rfl

def bSell0 : XBid := ⟨0, 1, "PT", "SELL", 10, 100, 0⟩
def bFlex0 : XBid := ⟨1, 1, "PT", "BUY", 50, 50, 0⟩
def dfh0 : List XBid := [bSell0, bFlex0]
def net0 : Network := buildNetwork false dfh0

/-- A solver output for `net0`: the sell unit produces 50, the flexible
buy unit consumes 50, the link does not flow, both prices are 50. -/
def sol0 : Solution :=
  ⟨fun n => if n = "SELL_PT_0" then 50 else if n = "FLEX_PT_1" then -50 else 0, 0, 50, 50⟩

lemma net0_eq : net0
    = { comps := [Component.generator "SELL_PT_0" "PT" 100 0 1 10,
                  Component.generator "FLEX_PT_1" "PT" 50 (-1) 0 50],
        link_p_nom := 3800 } := by
  simp [net0, buildNetwork, marketComponents, pt_sell, es_sell, pt_buy, es_buy, dfh0,
    bSell0, bFlex0, add_sell, add_buy, MANDATORY_PRICE, toString_zero, toString_one,
    intercap, (show ¬((100:ℚ) ≤ 0) by norm_num), (show ¬((50:ℚ) ≤ 0) by norm_num),
    (show ¬((50:ℚ) ≥ 3880) by norm_num)]

lemma feasible0 : feasible net0 sol0 = true := by
  rw [net0_eq]
  simp [feasible, genOK, zoneSupply, zoneLoad, sol0]
  norm_num

/-- The LP objective the solve minimizes: total dispatch cost, the sum of
`marginal_cost * dispatch` over the generators. -/
def objective (net : Network) (sol : Solution) : ℚ :=
  (net.comps.map (fun c => match c with
    | Component.generator n _ _ _ _ mc => mc * sol.genP n
    | Component.fixedLoad _ _ _ => 0)).sum

/-- The solver output `sol0` is cost-minimal among all feasible outputs
for `net0`: it is what an exact LP solver returns for this period. -/
lemma sol0_cost_minimal (sol : Solution) (hf : feasible net0 sol = true) :
    objective net0 sol0 ≤ objective net0 sol := by
  rw [net0_eq] at hf
  simp [feasible, genOK, zoneSupply, zoneLoad] at hf
  rw [net0_eq]
  simp [objective, sol0]
  linarith

/-- C1 counterexample: in the period of `dfh0`, under the feasible solver
output `sol0`, the recorded `total_demand` is 0 while flexible demand
plus mandatory demand is 50 — `total_demand` does not include the energy
dispatched to the flexible buy bid. -/
theorem total_demand_counterexample :
    feasible net0 sol0 = true
    ∧ (∀ sol, feasible net0 sol = true → objective net0 sol0 ≤ objective net0 sol)
    ∧ total_demand net0 ≠ spec_flexible_demand dfh0 sol0 + spec_mandatory_demand dfh0 := by
  refine ⟨feasible0, sol0_cost_minimal, ?_⟩
  simp [net0_eq, total_demand, loadsSum, spec_flexible_demand, spec_mandatory_demand,
    pt_buy, es_buy, dfh0, bSell0, bFlex0, flexDispatch, mandLoad, sol0, MANDATORY_PRICE,
    toString_one, (show (50:ℚ) < 3880 by norm_num), (show ¬((3880:ℚ) ≤ 50) by norm_num)]

/-- C3 counterexample: in the period of `dfh0`, under the feasible solver
output `sol0`, the recorded `total_supply` is 0 (the negative flexible
dispatch is summed in) while the sum over SELL variables alone is 50. -/
theorem total_supply_counterexample :
    feasible net0 sol0 = true
    ∧ (∀ sol, feasible net0 sol = true → objective net0 sol0 ≤ objective net0 sol)
    ∧ total_supply net0 sol0 ≠ spec_total_supply dfh0 sol0 := by
  refine ⟨feasible0, sol0_cost_minimal, ?_⟩
  simp [net0_eq, total_supply, genPSum, spec_total_supply, pt_sell, es_sell, dfh0,
    bSell0, bFlex0, sellDispatch, sol0, toString_zero]

/-- C2 at the failing input: the flexible buy bid `bFlex0` is dispatched
with magnitude 50, far above the 1e-6 tolerance, in the feasible solver
output `sol0`, yet its trading-result row records trade flag 0 and traded
energy 0 — the loop looks up the name `BUY_PT_1` among the loads while
the bid's decision variable is the generator `FLEX_PT_1`.  The recorded
clearing price is still the bid's own zonal price. -/
theorem flex_buy_reported_untraded :
    feasible net0 sol0 = true
    ∧ (∀ sol, feasible net0 sol = true → objective net0 sol0 ≤ objective net0 sol)
    ∧ TOL < |sol0.genP ("FLEX_" ++ "PT" ++ "_" ++ toString bFlex0.idx)|
    ∧ (tradingRow net0 sol0 bFlex0).was_traded = 0
    ∧ (tradingRow net0 sol0 bFlex0).traded_energy = 0
    ∧ (tradingRow net0 sol0 bFlex0).clearing_price = sol0.price_pt := by
  refine ⟨feasible0, sol0_cost_minimal, ?_, ?_, ?_, ?_⟩
  all_goals simp [tradingRow, hasGen, hasLoad, loadP, net0_eq, bFlex0, sol0, TOL,
    toString_one]
  all_goals norm_num

lemma perturbFrom_map_period (rand : ℕ → ℚ) (i : ℕ) (l : List RawBid) :
    (perturbFrom rand i l).map XBid.period = l.map RawBid.period := by
  induction l generalizing i with
  | nil => rfl
  | cons b t ih => simp [perturbFrom, ih]

/-- C8: running the pipeline twice with the same solver, the same seeded
random generator and the same input table yields identical session and
trading tables — the whole run, the tie-breaking perturbation included,
is a deterministic function of the seed and the input. -/
theorem rerun_same_seed_identical (solver : Network → Solution) (rand : ℕ → ℕ → ℚ)
    (seed : ℕ) (tbl : BidTable) (r₁ r₂ : List SessionRow × List TradingRow)
    (h₁ : r₁ = fullRun solver (rand seed) tbl) (h₂ : r₂ = fullRun solver (rand seed) tbl) :
    r₁.1 = r₂.1 ∧ r₁.2 = r₂.2 := by
  subst h₁
  subst h₂
  exact ⟨rfl, rfl⟩

def tbl1 : BidTable := ⟨[⟨1, "PT", "SELL", 10, 5, 0⟩], false⟩
def solver1 : Network → Solution := fun _ => ⟨fun _ => 0, 0, 0, 0⟩
def rand1 : ℕ → ℕ → ℚ := fun _ _ => 0

/-- Witness for C8: two runs on the concrete table `tbl1` with seed 42
agree on both output tables. -/
theorem rerun_same_seed_identical_check :
    (fullRun solver1 (rand1 42) tbl1).1 = (fullRun solver1 (rand1 42) tbl1).1
    ∧ (fullRun solver1 (rand1 42) tbl1).2 = (fullRun solver1 (rand1 42) tbl1).2 :=
  rerun_same_seed_identical solver1 rand1 42 tbl1 _ _ rfl rfl

/-- C9: the simulated periods are exactly the distinct `PERIOD` values of
the bid table, each occurring once, in strictly ascending order, and the
session-results table carries exactly these periods in this order (hence
one row per distinct period, sorted ascending). -/
theorem periods_enumerated_sorted (solver : Network → Solution) (rand : ℕ → ℚ)
    (tbl : BidTable) :
    List.Sorted (· < ·) (hours (xbids rand tbl))
    ∧ (hours (xbids rand tbl)).Nodup
    ∧ (∀ q : Int, q ∈ hours (xbids rand tbl) ↔ q ∈ tbl.bids.map RawBid.period)
    ∧ (fullRun solver rand tbl).1.map SessionRow.period = hours (xbids rand tbl) := by
  have hnd : (hours (xbids rand tbl)).Nodup :=
    (List.perm_insertionSort _ _).nodup_iff.mpr (List.nodup_dedup _)
  have hsle : List.Sorted (· ≤ ·) (hours (xbids rand tbl)) :=
    List.sorted_insertionSort _ _
  refine ⟨hsle.lt_of_le hnd, hnd, fun q => ?_, ?_⟩
  · unfold hours xbids
    rw [(List.perm_insertionSort _ _).mem_iff, List.mem_dedup, perturbFrom_map_period]
  · rw [show (fullRun solver rand tbl).1
        = (hours (xbids rand tbl)).map
            (runPeriodSession solver tbl.hasInter (xbids rand tbl)) from rfl,
      List.map_map]
    exact List.map_id'' (fun p => rfl) _

/-- C10: every session-result row records as Clearing Price the larger of
the two zonal prices, so it equals both zonal prices whenever they
coincide. -/
theorem clearing_price_is_max (solver : Network → Solution) (rand : ℕ → ℚ)
    (tbl : BidTable) (row : SessionRow) (h : row ∈ (fullRun solver rand tbl).1) :
    row.clearing_price = max row.price_pt row.price_es
    ∧ (row.price_pt = row.price_es →
        row.clearing_price = row.price_pt ∧ row.clearing_price = row.price_es) := by
  have he : (fullRun solver rand tbl).1
      = (hours (xbids rand tbl)).map
          (runPeriodSession solver tbl.hasInter (xbids rand tbl)) := rfl
  rw [he, List.mem_map] at h
  obtain ⟨p, _, rfl⟩ := h
  have hcp : (runPeriodSession solver tbl.hasInter (xbids rand tbl) p).clearing_price
      = max (runPeriodSession solver tbl.hasInter (xbids rand tbl) p).price_pt
          (runPeriodSession solver tbl.hasInter (xbids rand tbl) p).price_es := rfl
  refine ⟨hcp, fun hpe => ⟨?_, ?_⟩⟩
  · rw [hcp, hpe, max_self]
  · rw [hcp, hpe, max_self]

def wrow : SessionRow := runPeriodSession solver1 tbl1.hasInter (xbids (rand1 42) tbl1) 1

/-- Witness for C10 at the first (and only) session row of a concrete
run. -/
theorem clearing_price_is_max_check :
    wrow.clearing_price = max wrow.price_pt wrow.price_es :=
  (clearing_price_is_max solver1 (rand1 42) tbl1 wrow
    (List.mem_map.mpr ⟨1, by decide, rfl⟩)).1

end MIBEL
